import Mathlib

/-!
Verification development for the workout-plan tracker.

The Python sources under consideration are `workout/routes/api.py`
(free-text parsers, plan summarizer, session progression engine and the
HTTP route logic) and `workout/services/training_sessions.py` (the
training-session service over a row store).  Strings are embedded as
lists of characters; the row store is embedded as in-memory lists of
rows threaded through the service operations.
-/

namespace Workout

/-- Strings of the embedded program, as lists of Unicode characters. -/
abbrev Str := List Char

/-- Python `str.isspace` on the whitespace characters relevant here
(the source strings only ever contain ASCII whitespace). -/
def isSpaceChar (c : Char) : Bool :=
  c = ' ' || c = '\t' || c = '\n' || c = '\r' ||
  c = Char.ofNat 11 || c = Char.ofNat 12

/-- Python `str.strip()`: drop whitespace from both ends. -/
def stripStr (s : Str) : Str :=
  ((s.dropWhile isSpaceChar).reverse.dropWhile isSpaceChar).reverse

/-- Python `str.lower()` restricted to ASCII letters (the keyword tests of
the source only involve ASCII and CJK characters, which `lower` leaves
unchanged). -/
def lowerStr (s : Str) : Str := s.map Char.toLower

/-- Does `s` start with `p`? (anchored regex-literal match). -/
def strStartsWith : Str → Str → Bool
  | [], _ => true
  | _ :: _, [] => false
  | p :: ps, c :: cs => p = c && strStartsWith ps cs

/-- Python `pat in s`: substring containment. -/
def strContains (pat : Str) : Str → Bool
  | [] => strStartsWith pat []
  | c :: cs => strStartsWith pat (c :: cs) || strContains pat cs

/-- Numeric value of a run of decimal digit characters. -/
def digitsVal (ds : Str) : Nat :=
  ds.foldl (fun a c => a * 10 + (c.toNat - '0'.toNat)) 0

/-- `_extract_number`: `re.search(r"\d+", s)` — the first maximal run of
digits, as an integer. -/
def extractNumber : Str → Option Nat
  | [] => none
  | c :: cs =>
    if Char.isDigit c then some (digitsVal ((c :: cs).takeWhile Char.isDigit))
    else extractNumber cs

/-- Attempt to match `(\d+)\s*[x×*]\s*(\d+)` anchored at the start of `s`.
The character classes after `\d+` are disjoint from digits, so the greedy
maximal-run reading coincides with the regex semantics. -/
def setRepAt (s : Str) : Option (Nat × Nat) :=
  let ds := s.takeWhile Char.isDigit
  if ds = [] then none
  else
    match (s.dropWhile Char.isDigit).dropWhile isSpaceChar with
    | [] => none
    | c :: tail =>
      if c = 'x' || c = '×' || c = '*' then
        let ds2 := (tail.dropWhile isSpaceChar).takeWhile Char.isDigit
        if ds2 = [] then none else some (digitsVal ds, digitsVal ds2)
      else none

/-- `_extract_set_rep_pair`: leftmost match of `(\d+)\s*[x×*]\s*(\d+)`. -/
def extractSetRepPair : Str → Option (Nat × Nat)
  | [] => none
  | c :: cs =>
    match setRepAt (c :: cs) with
    | some p => some p
    | none => extractSetRepPair cs

/-- Normalisation step of `_parse_rest_seconds`: lower-case, map the
full-width colon and minute marks to `:`, and delete second marks. -/
def normalizeRest (s : Str) : Str :=
  (((s.map Char.toLower).map
      (fun c => if c = '：' || c = Char.ofNat 39 || c = '′' then ':' else c)).filter
    (fun c => !(c = Char.ofNat 34 || c = '″')))

/-- Attempt to match `(\d+)\s*[:]\s*(\d+)` anchored at the start. -/
def colonPairAt (s : Str) : Option (Nat × Nat) :=
  let ds := s.takeWhile Char.isDigit
  if ds = [] then none
  else
    match (s.dropWhile Char.isDigit).dropWhile isSpaceChar with
    | ':' :: tail =>
      let ds2 := (tail.dropWhile isSpaceChar).takeWhile Char.isDigit
      if ds2 = [] then none else some (digitsVal ds, digitsVal ds2)
    | _ => none

/-- Leftmost match of `(\d+)\s*[:]\s*(\d+)`. -/
def findColonPair : Str → Option (Nat × Nat)
  | [] => none
  | c :: cs =>
    match colonPairAt (c :: cs) with
    | some p => some p
    | none => findColonPair cs

/-- Attempt to match `(\d+)\s*[:]\s*$` anchored at the start. -/
def trailingMinutesAt (s : Str) : Option Nat :=
  let ds := s.takeWhile Char.isDigit
  if ds = [] then none
  else
    match (s.dropWhile Char.isDigit).dropWhile isSpaceChar with
    | ':' :: tail => if tail.dropWhile isSpaceChar = [] then some (digitsVal ds) else none
    | _ => none

/-- Leftmost match of `(\d+)\s*[:]\s*$`. -/
def findTrailingMinutes : Str → Option Nat
  | [] => none
  | c :: cs =>
    match trailingMinutesAt (c :: cs) with
    | some p => some p
    | none => findTrailingMinutes cs

/-- Leftmost match of `(\d+)(u₁|u₂|…)` for a list of unit suffixes:
the first digit run immediately followed by one of the unit strings. -/
def findUnitNumber (units : List Str) : Str → Option Nat
  | [] => none
  | c :: cs =>
    if Char.isDigit c then
      let ds := (c :: cs).takeWhile Char.isDigit
      let rest := (c :: cs).dropWhile Char.isDigit
      if units.any (fun u => strStartsWith u rest) then some (digitsVal ds)
      else findUnitNumber units cs
    else findUnitNumber units cs

/-- Minute unit alternatives of `(\d+)(分钟|分|min)`. -/
def minuteUnits : List Str := ["分钟".toList, "分".toList, "min".toList]

/-- Second unit alternatives of `(\d+)(秒|s|sec)`. -/
def secondUnits : List Str := ["秒".toList, "s".toList, "sec".toList]

/-- `re.sub(r"\D*\Z", "", s)`: strip the trailing run of non-digits. -/
def stripTrailingNonDigits (s : Str) : Str :=
  (s.reverse.dropWhile (fun c => !Char.isDigit c)).reverse

/-- `_parse_rest_seconds`: best-effort conversion of free-text rest
notation to seconds (`None` when unparseable). -/
def parseRestSeconds (value : Str) : Option Nat :=
  let text := stripStr value
  if text = [] then none
  else
    let normalized := normalizeRest text
    match findColonPair normalized with
    | some p => some (p.1 * 60 + p.2)
    | none =>
      match findTrailingMinutes normalized with
      | some m => some (m * 60)
      | none =>
        let total := (findUnitNumber minuteUnits normalized).getD 0 * 60 +
          (findUnitNumber secondUnits normalized).getD 0
        if total ≠ 0 then some total
        else
          let compact := stripTrailingNonDigits normalized
          if compact ≠ [] ∧ compact.all Char.isDigit then some (digitsVal compact)
          else none

/-- Tokenizer accumulator for `re.findall(r"\d+", s)`: `cur` holds the
digits of the current run, reversed. -/
def drAux (cur : Str) : Str → List Str
  | [] => if cur = [] then [] else [cur.reverse]
  | c :: cs =>
    if Char.isDigit c then drAux (c :: cur) cs
    else if cur = [] then drAux [] cs
    else cur.reverse :: drAux [] cs

/-- `re.findall(r"\d+", s)`: the maximal digit runs, left to right. -/
def digitRuns (s : Str) : List Str := drAux [] s

/-- `_has_positive_number`: does any digit run have a positive value? -/
def hasPositiveNumber (s : Str) : Bool :=
  (digitRuns s).any (fun r => digitsVal r > 0)

/-- Scanner state for `re.findall(r"\d+(?:\.\d+)?", s)`: outside a match,
inside the integer part, just past a decimal point (pending a digit), or
inside the fraction.  Accumulated characters are kept reversed. -/
inductive NumScan where
  | out
  | ip (cur : Str)
  | dot (cur : Str)
  | fr (cur : Str)

/-- Tokenizer for `\d+(?:\.\d+)?`: the fraction group joins the match
only when the decimal point is followed by a digit. -/
def nrAux : NumScan → Str → List Str
  | .out, [] => []
  | .ip cur, [] => [cur.reverse]
  | .dot cur, [] => [cur.reverse]
  | .fr cur, [] => [cur.reverse]
  | .out, c :: cs => if Char.isDigit c then nrAux (.ip [c]) cs else nrAux .out cs
  | .ip cur, c :: cs =>
    if Char.isDigit c then nrAux (.ip (c :: cur)) cs
    else if c = '.' then nrAux (.dot cur) cs
    else cur.reverse :: nrAux .out cs
  | .dot cur, c :: cs =>
    if Char.isDigit c then nrAux (.fr (c :: '.' :: cur)) cs
    else cur.reverse :: nrAux .out cs
  | .fr cur, c :: cs =>
    if Char.isDigit c then nrAux (.fr (c :: cur)) cs
    else cur.reverse :: nrAux .out cs

/-- Matches of `\d+(?:\.\d+)?` (as matched substrings, scanned left to
right, non-overlapping): the numeric literals of `_extract_numeric_values`. -/
def numericRuns (s : Str) : List Str := nrAux .out s

/-- A matched numeric literal equals zero as a float exactly when every
digit in it is `0`. -/
def numericZero (m : Str) : Bool := m.all (fun c => c = '0' || c = '.')

/-- `_is_zero_only_row`: the non-name cells contain at least one numeric
literal and every numeric literal equals zero. -/
def isZeroOnlyRow (values : List Str) : Bool :=
  let numbers := values.flatMap numericRuns
  numbers ≠ [] && numbers.all numericZero

/-- Splits a string at each `+` or `&` character. -/
def splitOnPlusAmp : Str → List Str
  | [] => [[]]
  | c :: cs =>
    if c = '+' || c = '&' then [] :: splitOnPlusAmp cs
    else
      match splitOnPlusAmp cs with
      | [] => [[c]]
      | p :: ps => (c :: p) :: ps

/-- `_split_combination`: normalise full-width `＋`/`＆`, split on `+`/`&`,
trim parts, drop empties, falling back to the trimmed whole name. -/
def splitCombination (name : Str) : List Str :=
  if name = [] then []
  else
    let normalized := name.map (fun c => if c = '＋' then '+' else if c = '＆' then '&' else c)
    if !(strContains ['+'] normalized) && !(strContains ['&'] normalized) then [stripStr name]
    else
      let parts := ((splitOnPlusAmp normalized).map stripStr).filter (fun p => p ≠ [])
      if parts = [] then [stripStr name] else parts

/-- Category labels (the source uses plain strings). -/
def catNote : Str := "note".toList

/-- Category label for rest rows. -/
def catRest : Str := "rest".toList

/-- Category label for log/summary rows. -/
def catLog : Str := "log".toList

/-- Category label for warmup rows. -/
def catWarmup : Str := "warmup".toList

/-- Category label for trackable exercise rows. -/
def catExercise : Str := "exercise".toList

/-- Rest keywords of `_categorize_entry`. -/
def restKeywords : List Str := ["休息".toList, "rest".toList, "放松".toList]

/-- Log keywords of `_categorize_entry`. -/
def logKeywords : List Str := ["完成".toList, "记录".toList, "总结".toList]

/-- Warmup keywords of `_categorize_entry`. -/
def warmupKeywords : List Str :=
  ["热身".toList, "拉伸".toList, "激活".toList, "准备".toList,
   "梳理".toList, "升温".toList, "技术性".toList]

/-- `_categorize_entry`: keyword containment on the stripped, lower-cased
name, checked rest > log > warmup, defaulting to exercise; blank → note. -/
def categorizeEntry (name : Str) : Str :=
  let lowered := lowerStr (stripStr name)
  if lowered = [] then catNote
  else if restKeywords.any (fun k => strContains k lowered) then catRest
  else if logKeywords.any (fun k => strContains k lowered) then catLog
  else if warmupKeywords.any (fun k => strContains k lowered) then catWarmup
  else catExercise

/-- One Exercise Descriptor: the normalized, derived representation of a
plan row produced by `_summarise_plan`. -/
structure ExerciseDescriptor where
  exercise_name : Str
  components : List Str
  primary_component : Str
  is_combination : Bool
  target_sets : Option Nat
  target_reps : Option Nat
  target_weight : Option Str
  target_rest_seconds : Option Nat
  details : List Str
  is_trackable : Bool
  category : Str
deriving DecidableEq, Repr

/-- The per-row mutable accumulator of `_summarise_plan`'s cell loop. -/
structure RowAcc where
  target_sets : Option Nat
  target_reps : Option Nat
  target_weight : Option Str
  target_rest_seconds : Option Nat
  details : List Str
deriving DecidableEq, Repr

/-- The empty accumulator at the start of a row. -/
def initRowAcc : RowAcc := ⟨none, none, none, none, []⟩

/-- Does the (already stripped) header label a sets column? -/
def labelsSets (header : Str) : Bool :=
  strContains "组".toList header || strContains "set".toList (lowerStr header)

/-- Does the header label a reps column? -/
def labelsReps (header : Str) : Bool :=
  strContains "次".toList header || strContains "rep".toList (lowerStr header)

/-- Does the header label a weight column? -/
def labelsWeight (header : Str) : Bool :=
  strContains "重".toList header || strContains "kg".toList (lowerStr header)

/-- Does the header label a rest column? -/
def labelsRest (header : Str) : Bool :=
  strContains "休息".toList header || strContains "间隔".toList header ||
    strContains "rest".toList (lowerStr header)

/-- Does the cell value itself mention rest? -/
def valueMentionsRest (value : Str) : Bool :=
  strContains "休息".toList value || strContains "rest".toList (lowerStr value)

/-- Cell loop, details statement: non-name cells are appended. -/
def detailsStep (colIdx : Nat) (header value : Str) (acc : RowAcc) : RowAcc :=
  if colIdx ≠ 0 then { acc with details := acc.details ++ [header ++ ':' :: ' ' :: value] }
  else acc

/-- Cell loop, labeled sets column: first integer, only while unset. -/
def setsStep (header value : Str) (acc : RowAcc) : RowAcc :=
  if labelsSets header ∧ acc.target_sets = none then
    { acc with target_sets := extractNumber value }
  else acc

/-- Cell loop, labeled reps column: first integer, only while unset. -/
def repsStep (header value : Str) (acc : RowAcc) : RowAcc :=
  if labelsReps header ∧ acc.target_reps = none then
    { acc with target_reps := extractNumber value }
  else acc

/-- Cell loop, labeled weight column: raw value, only while unset. -/
def weightStep (header value : Str) (acc : RowAcc) : RowAcc :=
  if labelsWeight header ∧ acc.target_weight = none then
    { acc with target_weight := some value }
  else acc

/-- Cell loop, labeled rest column: parsed rest, only while unset and
only when the parse succeeds. -/
def restHeaderStep (header value : Str) (acc : RowAcc) : RowAcc :=
  if acc.target_rest_seconds = none ∧ labelsRest header then
    match parseRestSeconds value with
    | some r => { acc with target_rest_seconds := some r }
    | none => acc
  else acc

/-- Cell loop, trailing `AxB` candidate: fills sets then reps, each only
while still unset. -/
def pairStep (value : Str) (acc : RowAcc) : RowAcc :=
  match extractSetRepPair value with
  | some p =>
    let a := if acc.target_sets = none then { acc with target_sets := some p.1 } else acc
    if a.target_reps = none then { a with target_reps := some p.2 } else a
  | none => acc

/-- Cell loop, rest mentioned in the value itself: parsed rest, only
while unset. -/
def restValueStep (value : Str) (acc : RowAcc) : RowAcc :=
  if acc.target_rest_seconds = none ∧ valueMentionsRest value then
    match parseRestSeconds value with
    | some r => { acc with target_rest_seconds := some r }
    | none => acc
  else acc

/-- One iteration of `_summarise_plan`'s cell loop (`colIdx` is the
column index of the `enumerate`): empty cells are skipped; the remaining
statements run in source order — details, labeled sets/reps/weight/rest
columns, the trailing `AxB` candidate, then rest mentioned in the value. -/
def processCell (colIdx : Nat) (header value : Str) (acc : RowAcc) : RowAcc :=
  if value = [] then acc
  else
    restValueStep value (pairStep value (restHeaderStep header value
      (weightStep header value (repsStep header value (setsStep header value
        (detailsStep colIdx header value acc))))))

/-- Folds the cell loop over the zipped `(header, value)` pairs with
their column indices. -/
def processCells : Nat → List (Str × Str) → RowAcc → RowAcc
  | _, [], acc => acc
  | i, (h, v) :: rest, acc => processCells (i + 1) rest (processCell i h v acc)

/-- Zero targets are treated as absent (`target_sets == 0` → `None`). -/
def clearZeroTargets (acc : RowAcc) : RowAcc :=
  let acc1 := if acc.target_sets = some 0 then { acc with target_sets := none } else acc
  if acc1.target_reps = some 0 then { acc1 with target_reps := none } else acc1

/-- First cell whose value the rest parser accepts (the unlabeled-rest
fallback scan over the non-name cells). -/
def firstRest : List Str → Option Nat
  | [] => none
  | v :: vs =>
    match parseRestSeconds v with
    | some r => some r
    | none => firstRest vs

/-- Fallback name for a row whose first cell is blank. -/
def defaultName (idx : Nat) : Str := "未命名动作".toList ++ (toString idx).toList

/-- Is the optional target a positive number? (`x is not None and x > 0`). -/
def posOpt : Option Nat → Bool
  | some n => n > 0
  | none => false

/-- The unlabeled-rest fallback applied after the cell loop. -/
def firstRestFill (acc : RowAcc) (values : List Str) : RowAcc :=
  if acc.target_rest_seconds = none then
    { acc with target_rest_seconds := firstRest values }
  else acc

/-- The row's exercise name: first (stripped) cell, or the fallback. -/
def rowName (idx : Nat) (values : List Str) : Str :=
  if values.headD [] = [] then defaultName idx else values.headD []

/-- The descriptor's `components`: the combination split when it yields
more than one part, else empty. -/
def rowComponents (exercise : Str) : List Str :=
  if 1 < (splitCombination exercise).length then splitCombination exercise else []

/-- Per-row algorithm of `_summarise_plan` (`idx` is the 1-based row
number of the `enumerate`): `none` means the row is skipped (all-empty or
zero-only rows), otherwise the resulting Exercise Descriptor. -/
def summariseRow (headers : List Str) (idx : Nat) (row : List Str) : Option ExerciseDescriptor :=
  let values := row.map stripStr
  if values.all (fun v => v.isEmpty) then none
  else
    let exercise := rowName idx values
    if isZeroOnlyRow (values.drop 1) then none
    else
      let is_combination := decide (1 < (splitCombination exercise).length)
      let components := rowComponents exercise
      let acc := firstRestFill
        (clearZeroTargets (processCells 0 (headers.zip values) initRowAcc)) (values.drop 1)
      let category := categorizeEntry exercise
      let has_positive_numbers := (values.drop 1).any hasPositiveNumber
      let is_trackable := decide (category = catExercise) &&
        (posOpt acc.target_sets || posOpt acc.target_reps || has_positive_numbers)
      if is_trackable then
        some { exercise_name := exercise, components, is_combination,
               primary_component := components.headD exercise,
               target_sets := acc.target_sets, target_reps := acc.target_reps,
               target_weight := acc.target_weight,
               target_rest_seconds := acc.target_rest_seconds,
               details := acc.details, is_trackable := true, category }
      else
        some { exercise_name := exercise, components, is_combination,
               primary_component := components.headD exercise,
               target_sets := none, target_reps := none,
               target_weight := acc.target_weight, target_rest_seconds := none,
               details := acc.details, is_trackable := false,
               category := if category = catExercise then catNote else category }

/-- A stored Plan Record's tabular part (headers and stringified cells,
as the DataFrame reaches `_summarise_plan` after `fillna("")`). -/
structure PlanTable where
  headers : List Str
  rows : List (List Str)
deriving DecidableEq, Repr

/-- The Plan Summary returned by `_summarise_plan`. -/
structure PlanSummary where
  phase : Option Str
  remarks : List Str
  exercises : List ExerciseDescriptor
  default_rest_seconds : Option Nat
  trackable_exercise_count : Nat
  note_exercise_count : Nat
  is_rest_day : Bool
deriving DecidableEq, Repr

/-- The row loop of `_summarise_plan`: descriptor list plus the
`default_rest_seconds` accumulator (set by the first appended descriptor
that is trackable and carries a rest target). -/
def summariseRows (headers : List Str) : Nat → List (List Str) →
    List ExerciseDescriptor × Option Nat
  | _, [] => ([], none)
  | idx, row :: rest =>
    match summariseRow headers idx row with
    | none => summariseRows headers (idx + 1) rest
    | some d =>
      let tail := summariseRows headers (idx + 1) rest
      (d :: tail.1,
       if d.is_trackable ∧ d.target_rest_seconds.isSome then d.target_rest_seconds
       else tail.2)

/-- `_summarise_plan`: `none` (no Plan Record for the date) yields the
empty rest-day summary; otherwise headers are stripped and the row loop
runs with 1-based row indices. -/
def summarisePlan (plan : Option PlanTable) (phase : Option Str) (remarks : List Str) :
    PlanSummary :=
  match plan with
  | none => ⟨phase, remarks, [], none, 0, 0, true⟩
  | some p =>
    let headers := p.headers.map stripStr
    let pair := summariseRows headers 1 p.rows
    let trackable_count := (pair.1.filter (fun e => e.is_trackable)).length
    ⟨phase, remarks, pair.1, pair.2, trackable_count,
     pair.1.length - trackable_count, trackable_count = 0⟩

/-- One row of the `training_sets` table (a Training Set Log). -/
structure SetRow where
  id : Str
  session_id : Str
  exercise : Str
  set_number : Nat
  actual_reps : Option Int
  actual_weight : Option Str
  notes : Option Str
  rest_seconds : Option Nat
deriving DecidableEq, Repr

/-- One row of the `training_sessions` table. -/
structure SessionRow where
  id : Str
  plan_date : Str
  status : Str
  rest_interval_seconds : Nat
  started_at : Nat
deriving DecidableEq, Repr

/-- The storage backend visible to `TrainingSessionService`: the two
tables, rows in insertion order (timestamps increase with insertion). -/
structure ServiceState where
  sessions : List SessionRow
  sets : List SetRow
deriving DecidableEq, Repr

/-- Session status literal `active`. -/
def statusActive : Str := "active".toList

/-- Session status literal `completed`. -/
def statusCompleted : Str := "completed".toList

/-- A `TrainingSession` value as returned by the service (record fields
plus its fetched logs). -/
structure TrainingSession where
  id : Str
  plan_date : Str
  status : Str
  rest_interval_seconds : Nat
  logs : List SetRow
deriving DecidableEq, Repr

/-- `_normalize_date` on a string argument: empty falls back to today. -/
def normalizeDate (d today : Str) : Str := if d = [] then today else d

/-- Select `eq("session_id", sid)` over the `training_sets` table. -/
def logsFor : List SetRow → Str → List SetRow
  | [], _ => []
  | l :: ls, sid => if l.session_id = sid then l :: logsFor ls sid else logsFor ls sid

/-- `_fetch_logs`: the session's set rows ordered by `completed_at`
descending (timestamps increase with insertion, so this reverses). -/
def fetchLogs (σ : ServiceState) (sid : Str) : List SetRow := (logsFor σ.sets sid).reverse

/-- Select `eq("id", sid) … limit(1)` over the sessions table. -/
def findSession : List SessionRow → Str → Option SessionRow
  | [], _ => none
  | r :: rs, sid => if r.id = sid then some r else findSession rs sid

/-- Rows of the sessions table that are `active` for the given date. -/
def activeFor : List SessionRow → Str → List SessionRow
  | [], _ => []
  | r :: rs, d =>
    if r.plan_date = d ∧ r.status = statusActive then r :: activeFor rs d
    else activeFor rs d

/-- `order("started_at", desc=True).limit(1)`: the first row carrying the
maximal `started_at`. -/
def pickLatest : List SessionRow → Option SessionRow
  | [] => none
  | r :: rs =>
    match pickLatest rs with
    | none => some r
    | some best => if best.started_at > r.started_at then some best else some r

/-- The active-session lookup of `start_session`/`get_active_session`. -/
def findActiveSession (σ : ServiceState) (d : Str) : Option SessionRow :=
  pickLatest (activeFor σ.sessions d)

/-- `TrainingSessionService.start_session`: resume the newest active
session for the date if one exists (no insert), else insert a fresh
`active` row. `newId` stands for the generated UUID and `now` for the
insertion timestamp. -/
def startSession (σ : ServiceState) (plan_date : Str) (rest_interval_seconds : Nat)
    (newId : Str) (now : Nat) (today : Str) : TrainingSession × ServiceState :=
  let d := normalizeDate plan_date today
  match findActiveSession σ d with
  | some r =>
    (⟨r.id, r.plan_date, r.status, r.rest_interval_seconds, fetchLogs σ r.id⟩, σ)
  | none =>
    let row : SessionRow := ⟨newId, d, statusActive, rest_interval_seconds, now⟩
    (⟨newId, d, statusActive, rest_interval_seconds, []⟩,
     ⟨σ.sessions ++ [row], σ.sets⟩)

/-- The `update … eq("id", sid)` of `complete_session`. -/
def markCompleted : List SessionRow → Str → List SessionRow
  | [], _ => []
  | r :: rs, sid =>
    (if r.id = sid then { r with status := statusCompleted } else r) :: markCompleted rs sid

/-- `TrainingSessionService.complete_session`: set the session's status
to `completed` (the raised `RuntimeError` on a missing row is `none`). -/
def completeSession (σ : ServiceState) (sid : Str) : Option TrainingSession × ServiceState :=
  let updated := markCompleted σ.sessions sid
  let σ2 : ServiceState := ⟨updated, σ.sets⟩
  match findSession updated sid with
  | some r => (some ⟨r.id, r.plan_date, r.status, r.rest_interval_seconds, fetchLogs σ2 r.id⟩, σ2)
  | none => (none, σ2)

/-- `TrainingSessionService.get_session`. -/
def getSession (σ : ServiceState) (sid : Str) : Option TrainingSession :=
  match findSession σ.sessions sid with
  | some r => some ⟨r.id, r.plan_date, r.status, r.rest_interval_seconds, fetchLogs σ r.id⟩
  | none => none

/-- `TrainingSessionService.record_set` with an explicit `set_number`
(the routes always pass one): insert one `training_sets` row; an empty
exercise name raises (`none`). -/
def recordSet (σ : ServiceState) (sid exercise : Str) (set_number : Nat)
    (actual_reps : Option Int) (actual_weight : Option Str) (notes : Option Str)
    (rest_seconds : Option Nat) (newLogId : Str) : Option (SetRow × ServiceState) :=
  if exercise = [] then none
  else
    let row : SetRow := ⟨newLogId, sid, exercise, set_number, actual_reps,
      actual_weight, notes, rest_seconds⟩
    some (row, ⟨σ.sessions, σ.sets ++ [row]⟩)

/-- The value of `_determine_next_step` when it finds an unmet exercise. -/
structure NextStepInfo where
  exercise : Str
  next_set : Nat
  target_sets : Option Nat
  target_reps : Option Nat
  target_weight : Option Str
  target_rest_seconds : Option Nat
  details : List Str
  is_combination : Bool
  components : List Str
  primary_component : Str
deriving DecidableEq, Repr

/-- The per-exercise maximum over the logs' `set_number`s, defaulting to
0 (the `defaultdict`/`max` loop of `_determine_next_step`). -/
def maxLogged (logs : List SetRow) (name : Str) : Nat :=
  logs.foldl (fun acc l => if l.exercise = name then max acc l.set_number else acc) 0

/-- `_determine_next_step`: scan the exercises in plan order, skipping
untrackable ones; return the first whose logged maximum is below its
goal (`target_sets`, defaulting to 1 when unset), with
`next_set = logged + 1`; `none` when every trackable exercise met its
goal (the leading `if not exercises` early return is subsumed by the
empty case). -/
def determineNextStep (exercises : List ExerciseDescriptor) (logs : List SetRow) :
    Option NextStepInfo :=
  match exercises with
  | [] => none
  | e :: rest =>
    if e.is_trackable then
      let logged := maxLogged logs e.exercise_name
      if logged < e.target_sets.getD 1 then
        some ⟨e.exercise_name, logged + 1, e.target_sets, e.target_reps, e.target_weight,
          e.target_rest_seconds, e.details, e.is_combination, e.components,
          e.primary_component⟩
      else determineNextStep rest logs
    else determineNextStep rest logs

/-- Python's falsy-`or` for an optional number: `a or b` with `None` and
`0` both falsy. -/
def pyOrOpt (a : Option Nat) (b : Nat) : Nat :=
  match a with
  | some n => if n = 0 then b else n
  | none => b

/-- The localized error body of `start_training` on a rest day. -/
def errNoTrackable : Str := "今天没有需要记录的训练项目".toList

/-- Response of the `start-training` route, shorn of the transport layer:
`badRequest` is the HTTP 400 `{error}` reply, `ok` carries the fields the
claims consult (`session_id`, payload `status`, `current_exercise`,
`current_set`). -/
inductive StartResponse where
  | badRequest (error : Str)
  | ok (session_id : Str) (payloadStatus : Str) (current_exercise : Option Str)
      (current_set : Option Nat)
deriving DecidableEq, Repr

/-- The `start_training` route: summarise the date's plan, reject with
400 when no exercise is trackable, pick the rest interval (payload value
unless `None`/`0`, else the summary default or 90), start/resume the
session and report the next step via `_build_session_payload`. -/
def startTraining (plan : Option PlanTable) (phase : Option Str) (remarks : List Str)
    (payloadDate : Option Str) (payloadRest : Option Nat)
    (σ : ServiceState) (newId : Str) (now : Nat) (today : Str) :
    StartResponse × ServiceState :=
  let date := match payloadDate with
    | some d => if d = [] then today else d
    | none => today
  let summary := summarisePlan plan phase remarks
  if summary.exercises.filter (fun e => e.is_trackable) = [] then
    (.badRequest errNoTrackable, σ)
  else
    let rest_interval := match payloadRest with
      | none => pyOrOpt summary.default_rest_seconds 90
      | some 0 => pyOrOpt summary.default_rest_seconds 90
      | some n => n
    let pair := startSession σ date rest_interval newId now today
    let session := pair.1
    match determineNextStep summary.exercises session.logs with
    | none => (.ok session.id statusCompleted none none, pair.2)
    | some step =>
      (.ok session.id
        (if session.status = statusActive then statusActive else statusCompleted)
        (some step.exercise) (some step.next_set), pair.2)

/-- Response of the `next-set` route: `restR` is the `status: rest` reply
with the fields the claims consult, `completedR` the `status: completed`
reply (from either completion branch), plus the error replies. -/
inductive NextSetResponse where
  | badRequest
  | notFound
  | serverError
  | completedR
  | restR (current_exercise : Str) (current_set : Nat)
      (target_rest_seconds : Option Nat) (rest_seconds : Nat)
deriving DecidableEq, Repr

/-- The `next_set` route: recompute the next step from the plan summary
and the session's logs; if none, complete the session; otherwise record
the set (rest applied: manual, else the step's target rest, else the
session interval, 0 falsy throughout), recompute and answer with the new
step and its rest or with completion. -/
def nextSet (plan : Option PlanTable) (phase : Option Str) (remarks : List Str)
    (session_id : Option Str) (actual_reps : Option Int) (actual_weight : Option Str)
    (notes : Option Str) (manualRest : Option Nat)
    (σ : ServiceState) (newLogId : Str) : NextSetResponse × ServiceState :=
  match session_id with
  | none => (.badRequest, σ)
  | some sid =>
    if sid = [] then (.badRequest, σ)
    else
      match getSession σ sid with
      | none => (.notFound, σ)
      | some session =>
        let summary := summarisePlan plan phase remarks
        match determineNextStep summary.exercises session.logs with
        | none => (.completedR, (completeSession σ sid).2)
        | some step =>
          let effective_rest :=
            pyOrOpt manualRest (pyOrOpt step.target_rest_seconds session.rest_interval_seconds)
          match recordSet σ sid step.exercise step.next_set actual_reps actual_weight
              notes (some effective_rest) newLogId with
          | none => (.serverError, σ)
          | some (_, σ2) =>
            match getSession σ2 sid with
            | none => (.notFound, σ2)
            | some updated =>
              match determineNextStep summary.exercises updated.logs with
              | none => (.completedR, (completeSession σ2 sid).2)
              | some step2 =>
                (.restR step2.exercise step2.next_set step2.target_rest_seconds
                  (pyOrOpt step2.target_rest_seconds updated.rest_interval_seconds), σ2)

/-! ## Claim-side definitions

These render sentences of the specification in the spec's own words, to
be compared with the definitions translated from the source. -/

/-- The claim's fixed category priority list: rest > log > warmup. -/
def categoryTable : List (Str × List Str) :=
  [(catRest, restKeywords), (catLog, logKeywords), (catWarmup, warmupKeywords)]

/-- Classification as the claim words it: blank names are notes;
otherwise the first category (in the fixed priority) one of whose
keywords the (trimmed, case-folded) name contains; `exercise` when no
keyword is contained. -/
def categorizeClaim (name : Str) : Str :=
  let lowered := lowerStr (stripStr name)
  if lowered = [] then catNote
  else
    match categoryTable.find? (fun p => p.2.any (fun k => strContains k lowered)) with
    | some p => p.1
    | none => catExercise

/-- The rest target of the first trackable exercise that carries one, in
row order (the amended reading of `default_rest_seconds`). -/
def firstTrackableRest : List ExerciseDescriptor → Option Nat
  | [] => none
  | d :: rest =>
    if d.is_trackable ∧ d.target_rest_seconds.isSome then d.target_rest_seconds
    else firstTrackableRest rest

/-! ## Concrete plans used by witnesses and counterexamples -/

/-- Plan whose first trackable row has no parseable rest notation while
the second one does. -/
def planC7 : PlanTable :=
  ⟨["动作".toList, "备注".toList],
   [["深蹲".toList, "x3".toList], ["硬拉".toList, "休息90秒".toList]]⟩

/-- Plan whose unlabeled second cell carries an `AxB` pattern before a
labeled sets column. -/
def planC8 : PlanTable :=
  ⟨["动作".toList, "备注".toList, "组数".toList],
   [["深蹲".toList, "3x8".toList, "5".toList]]⟩

/-- Plan with the two trackable exercises of the end-to-end scenario:
深蹲 3×8 rest 90s, then 硬拉 3×8 rest 2min. -/
def planC6 : PlanTable :=
  ⟨["动作".toList, "组数".toList, "次数".toList, "休息".toList],
   [["深蹲".toList, "3".toList, "8".toList, "90秒".toList],
    ["硬拉".toList, "3".toList, "8".toList, "2分".toList]]⟩

/-- Single rest-day row, making a plan with no trackable exercise. -/
def planRestDay : PlanTable :=
  ⟨["动作".toList, "组数".toList], [["休息".toList, "".toList]]⟩

/-! ## Helper lemmas -/

/-- A filter and its complement split the length of a list. -/
theorem filterLengthSplit {α : Type} (p : α → Bool) (l : List α) :
    (l.filter p).length + (l.filter (fun a => !p a)).length = l.length := by
  induction l with
  | nil => rfl
  | cons a l ih =>
    cases h : p a <;> simp [List.filter_cons, h] <;> omega

/-- The summary's trackable count is the length of the trackable filter
of its exercises. -/
theorem trackableCountEqFilter (plan : Option PlanTable) (phase : Option Str)
    (remarks : List Str) :
    (summarisePlan plan phase remarks).trackable_exercise_count =
      ((summarisePlan plan phase remarks).exercises.filter (fun e => e.is_trackable)).length := by
  cases plan <;> rfl

/-! ## Claim theorems -/

/-- C3: `parse_rest_seconds` maps each of the notations `90秒`, `1:30`,
`1分30秒` and `90` to 90 seconds. -/
theorem c3_parse_rest_notations :
    parseRestSeconds "90秒".toList = some 90 ∧
    parseRestSeconds "1:30".toList = some 90 ∧
    parseRestSeconds "1分30秒".toList = some 90 ∧
    parseRestSeconds "90".toList = some 90 := by
  decide

/-- C9: `_categorize_entry` agrees everywhere with the claim's reading:
blank names are notes, otherwise the first category (rest > log >
warmup) one of whose keywords the name contains, defaulting to
`exercise`. -/
theorem c9_categorize_matches_claim (name : Str) :
    categorizeEntry name = categorizeClaim name := by
  unfold categorizeEntry categorizeClaim categoryTable
  by_cases h0 : lowerStr (stripStr name) = []
  · simp [h0]
  · simp only [if_neg h0, List.find?]
    cases hr : restKeywords.any (fun k => strContains k (lowerStr (stripStr name))) <;>
      cases hl : logKeywords.any (fun k => strContains k (lowerStr (stripStr name))) <;>
        cases hw : warmupKeywords.any (fun k => strContains k (lowerStr (stripStr name))) <;>
          simp [hr, hl, hw]

/-- C10: in every summary, `note_exercise_count` counts all descriptors
that are not trackable — it is the total minus the trackable count, so
the two tallies always add up to the number of exercises. -/
theorem c10_note_count_is_nontrackable (plan : Option PlanTable) (phase : Option Str)
    (remarks : List Str) :
    (summarisePlan plan phase remarks).trackable_exercise_count +
        (summarisePlan plan phase remarks).note_exercise_count =
      (summarisePlan plan phase remarks).exercises.length ∧
    (summarisePlan plan phase remarks).note_exercise_count =
      ((summarisePlan plan phase remarks).exercises.filter
        (fun d => !d.is_trackable)).length := by
  cases plan with
  | none => exact ⟨rfl, rfl⟩
  | some p =>
    have hsplit := filterLengthSplit (fun e : ExerciseDescriptor => e.is_trackable)
      (summariseRows (p.headers.map stripStr) 1 p.rows).1
    simp only [summarisePlan]
    constructor <;> omega

/-- C2: an untrackable descriptor never carries numeric targets, and a
row classified `exercise` that ends up untrackable is downgraded to
`note`. -/
theorem c2_untrackable_clears_targets (headers : List Str) (idx : Nat) (row : List Str)
    (d : ExerciseDescriptor) (h : summariseRow headers idx row = some d)
    (ht : d.is_trackable = false) :
    d.target_sets = none ∧ d.target_reps = none ∧ d.target_rest_seconds = none ∧
    d.category ≠ catExercise ∧
    (categorizeEntry d.exercise_name = catExercise → d.category = catNote) := by
  unfold summariseRow at h
  simp only [] at h
  split at h
  · exact absurd h (by simp)
  split at h
  · exact absurd h (by simp)
  split at h
  · -- trackable construction: contradicts `ht`
    replace h := Option.some_inj.mp h
    subst h
    simp at ht
  · replace h := Option.some_inj.mp h
    subst h
    refine ⟨rfl, rfl, rfl, ?_, ?_⟩
    · simp only [ne_eq]
      split
      · decide
      · next hne => exact hne
    · intro hcat
      simp only [] at hcat ⊢
      rw [if_pos hcat]

/-- The row loop's `default_rest_seconds` accumulator picks the rest of
the first trackable descriptor carrying one. -/
theorem summariseRowsDefaultRest (headers : List Str) :
    ∀ (idx : Nat) (rows : List (List Str)),
      (summariseRows headers idx rows).2 =
        firstTrackableRest (summariseRows headers idx rows).1
  | _, [] => rfl
  | idx, row :: rest => by
    simp only [summariseRows]
    cases h : summariseRow headers idx row with
    | none => exact summariseRowsDefaultRest headers (idx + 1) rest
    | some d =>
      simp only [firstTrackableRest]
      split
      · rfl
      · exact summariseRowsDefaultRest headers (idx + 1) rest

/-- C7 counterexample: in `planC7` the first trackable exercise has no
rest target, yet `default_rest_seconds` is 90, taken from the second
trackable exercise — so the default is not the first trackable
exercise's rest (nor `None`). -/
theorem c7_counterexample :
    ((summarisePlan (some planC7) none []).exercises.filter
        (fun d => d.is_trackable)).map (fun d => d.target_rest_seconds) =
      [none, some 90] ∧
    (summarisePlan (some planC7) none []).default_rest_seconds = some 90 := by
  decide

/-- C7 amended: `default_rest_seconds` is the rest target of the first
trackable exercise that carries one, in row order (`None` when no
trackable exercise carries a rest target). -/
theorem c7_default_rest_amended (plan : Option PlanTable) (phase : Option Str)
    (remarks : List Str) :
    (summarisePlan plan phase remarks).default_rest_seconds =
      firstTrackableRest (summarisePlan plan phase remarks).exercises := by
  cases plan with
  | none => rfl
  | some p => exact summariseRowsDefaultRest (p.headers.map stripStr) 1 p.rows

/-- C8 counterexample: in `planC8` the unlabeled cell `3x8` precedes the
labeled sets column `组数` holding `5`; the summariser keeps the `AxB`
value 3 and ignores the labeled column's 5, so labeled columns do not
take precedence regardless of cell order. -/
theorem c8_counterexample :
    (summariseRow (planC8.headers.map stripStr) 1 (planC8.rows.headD [])).map
        (fun d => d.target_sets) = some (some 3) ∧
    extractNumber "5".toList = some 5 ∧
    labelsSets (stripStr "组数".toList) = true := by
  decide

/-- C8 amended: field assignments in the cell loop are first-wins in
cell order — a sets/reps value already assigned is never overwritten —
and within one cell the labeled-column extraction runs before the `AxB`
candidate, so the labeled value wins in the same cell; the `AxB`
candidate fills a target only when it is still unset and the cell is not
correspondingly labeled. -/
theorem detailsStepTargets (i : Nat) (h v : Str) (acc : RowAcc) :
    (detailsStep i h v acc).target_sets = acc.target_sets ∧
    (detailsStep i h v acc).target_reps = acc.target_reps := by
  unfold detailsStep
  split <;> exact ⟨rfl, rfl⟩

theorem setsStepTargets (h v : Str) (acc : RowAcc) :
    (setsStep h v acc).target_sets =
      (if labelsSets h ∧ acc.target_sets = none then extractNumber v
       else acc.target_sets) ∧
    (setsStep h v acc).target_reps = acc.target_reps := by
  unfold setsStep
  split <;> exact ⟨rfl, rfl⟩

theorem repsStepTargets (h v : Str) (acc : RowAcc) :
    (repsStep h v acc).target_sets = acc.target_sets ∧
    (repsStep h v acc).target_reps =
      (if labelsReps h ∧ acc.target_reps = none then extractNumber v
       else acc.target_reps) := by
  unfold repsStep
  split <;> exact ⟨rfl, rfl⟩

theorem weightStepTargets (h v : Str) (acc : RowAcc) :
    (weightStep h v acc).target_sets = acc.target_sets ∧
    (weightStep h v acc).target_reps = acc.target_reps := by
  unfold weightStep
  split <;> exact ⟨rfl, rfl⟩

theorem restHeaderStepTargets (h v : Str) (acc : RowAcc) :
    (restHeaderStep h v acc).target_sets = acc.target_sets ∧
    (restHeaderStep h v acc).target_reps = acc.target_reps := by
  unfold restHeaderStep
  split
  · split <;> exact ⟨rfl, rfl⟩
  · exact ⟨rfl, rfl⟩

theorem restValueStepTargets (v : Str) (acc : RowAcc) :
    (restValueStep v acc).target_sets = acc.target_sets ∧
    (restValueStep v acc).target_reps = acc.target_reps := by
  unfold restValueStep
  split
  · split <;> exact ⟨rfl, rfl⟩
  · exact ⟨rfl, rfl⟩

theorem pairStepSets (v : Str) (acc : RowAcc) :
    (pairStep v acc).target_sets =
      (match extractSetRepPair v with
       | some p => if acc.target_sets = none then some p.1 else acc.target_sets
       | none => acc.target_sets) := by
  unfold pairStep
  cases hp : extractSetRepPair v
  · rfl
  · simp only []
    split_ifs <;> rfl

theorem pairStepReps (v : Str) (acc : RowAcc) :
    (pairStep v acc).target_reps =
      (match extractSetRepPair v with
       | some p => if acc.target_reps = none then some p.2 else acc.target_reps
       | none => acc.target_reps) := by
  unfold pairStep
  cases hp : extractSetRepPair v
  · rfl
  · simp only []
    split_ifs <;> rfl

/-- What the whole cell does to `target_sets`: nothing on an empty cell;
else the labeled-sets extraction (if unset), then the `AxB` first
component (if still unset). -/
theorem processCellSets (i : Nat) (h v : Str) (acc : RowAcc) :
    (processCell i h v acc).target_sets =
      if v = [] then acc.target_sets
      else
        match extractSetRepPair v with
        | some p =>
          if (if labelsSets h ∧ acc.target_sets = none then extractNumber v
              else acc.target_sets) = none then some p.1
          else (if labelsSets h ∧ acc.target_sets = none then extractNumber v
              else acc.target_sets)
        | none =>
          (if labelsSets h ∧ acc.target_sets = none then extractNumber v
           else acc.target_sets) := by
  unfold processCell
  by_cases hv : v = []
  · rw [if_pos hv, if_pos hv]
  · rw [if_neg hv, if_neg hv]
    rw [(restValueStepTargets v _).1, pairStepSets]
    have hchain : (restHeaderStep h v (weightStep h v (repsStep h v (setsStep h v
        (detailsStep i h v acc))))).target_sets =
        (if labelsSets h ∧ acc.target_sets = none then extractNumber v
         else acc.target_sets) := by
      rw [(restHeaderStepTargets h v _).1, (weightStepTargets h v _).1,
        (repsStepTargets h v _).1, (setsStepTargets h v _).1,
        (detailsStepTargets i h v acc).1]
    rw [hchain]

/-- What the whole cell does to `target_reps`: nothing on an empty cell;
else the labeled-reps extraction (if unset), then the `AxB` second
component (if still unset). -/
theorem processCellReps (i : Nat) (h v : Str) (acc : RowAcc) :
    (processCell i h v acc).target_reps =
      if v = [] then acc.target_reps
      else
        match extractSetRepPair v with
        | some p =>
          if (if labelsReps h ∧ acc.target_reps = none then extractNumber v
              else acc.target_reps) = none then some p.2
          else (if labelsReps h ∧ acc.target_reps = none then extractNumber v
              else acc.target_reps)
        | none =>
          (if labelsReps h ∧ acc.target_reps = none then extractNumber v
           else acc.target_reps) := by
  unfold processCell
  by_cases hv : v = []
  · rw [if_pos hv, if_pos hv]
  · rw [if_neg hv, if_neg hv]
    rw [(restValueStepTargets v _).2, pairStepReps]
    have hchain : (restHeaderStep h v (weightStep h v (repsStep h v (setsStep h v
        (detailsStep i h v acc))))).target_reps =
        (if labelsReps h ∧ acc.target_reps = none then extractNumber v
         else acc.target_reps) := by
      rw [(restHeaderStepTargets h v _).2, (weightStepTargets h v _).2,
        (repsStepTargets h v _).2, (setsStepTargets h v _).2,
        (detailsStepTargets i h v acc).2]
    rw [hchain]

theorem c8_axb_fill_amended :
    (∀ (i : Nat) (h v : Str) (acc : RowAcc) (n : Nat), acc.target_sets = some n →
        (processCell i h v acc).target_sets = some n) ∧
    (∀ (i : Nat) (h v : Str) (acc : RowAcc) (n : Nat), acc.target_reps = some n →
        (processCell i h v acc).target_reps = some n) ∧
    (∀ (i : Nat) (h v : Str) (acc : RowAcc) (k : Nat), acc.target_sets = none →
        labelsSets h = true → extractNumber v = some k →
        (processCell i h v acc).target_sets = some k) ∧
    (∀ (i : Nat) (h v : Str) (acc : RowAcc) (k : Nat), acc.target_reps = none →
        labelsReps h = true → extractNumber v = some k →
        (processCell i h v acc).target_reps = some k) ∧
    (∀ (i : Nat) (h v : Str) (acc : RowAcc) (a b : Nat), acc.target_sets = none →
        labelsSets h = false → extractSetRepPair v = some (a, b) →
        (processCell i h v acc).target_sets = some a) ∧
    (∀ (i : Nat) (h v : Str) (acc : RowAcc) (a b : Nat), acc.target_reps = none →
        labelsReps h = false → extractSetRepPair v = some (a, b) →
        (processCell i h v acc).target_reps = some b) := by
  refine ⟨?_, ?_, ?_, ?_, ?_, ?_⟩ <;> intro i h v acc
  · intro n hn
    rw [processCellSets]
    cases hp : extractSetRepPair v <;> by_cases hv : v = [] <;> simp [hv, hp, hn]
  · intro n hn
    rw [processCellReps]
    cases hp : extractSetRepPair v <;> by_cases hv : v = [] <;> simp [hv, hp, hn]
  · intro k hnone hlab hext
    have hv : v ≠ [] := by
      intro hv
      rw [hv] at hext
      exact Option.noConfusion hext
    rw [processCellSets]
    cases hp : extractSetRepPair v <;> simp [hv, hp, hnone, hlab, hext]
  · intro k hnone hlab hext
    have hv : v ≠ [] := by
      intro hv
      rw [hv] at hext
      exact Option.noConfusion hext
    rw [processCellReps]
    cases hp : extractSetRepPair v <;> simp [hv, hp, hnone, hlab, hext]
  · intro a b hnone hlab hpair
    have hv : v ≠ [] := by
      intro hv
      rw [hv] at hpair
      exact Option.noConfusion hpair
    rw [processCellSets]
    simp [hv, hpair, hnone, hlab]
  · intro a b hnone hlab hpair
    have hv : v ≠ [] := by
      intro hv
      rw [hv] at hpair
      exact Option.noConfusion hpair
    rw [processCellReps]
    simp [hv, hpair, hnone, hlab]

theorem maxLoggedAuxLe (name : Str) :
    ∀ (logs : List SetRow) (acc : Nat),
      acc ≤ List.foldl (fun a l => if l.exercise = name then max a l.set_number else a) acc logs
  | [], _ => le_rfl
  | l :: ls, acc => by
    simp only [List.foldl_cons]
    refine le_trans ?_ (maxLoggedAuxLe name ls _)
    split
    · exact Nat.le_max_left _ _
    · exact le_rfl

theorem maxLoggedAuxMem (name : Str) :
    ∀ (logs : List SetRow) (acc : Nat) (l : SetRow), l ∈ logs → l.exercise = name →
      l.set_number ≤
        List.foldl (fun a l => if l.exercise = name then max a l.set_number else a) acc logs
  | [], _, _, h, _ => absurd h (List.not_mem_nil _)
  | m :: ls, acc, l, h, he => by
    simp only [List.foldl_cons]
    rcases List.mem_cons.mp h with rfl | hmem
    · refine le_trans ?_ (maxLoggedAuxLe name ls _)
      rw [if_pos he]
      exact Nat.le_max_right _ _
    · exact maxLoggedAuxMem name ls _ l hmem he

theorem maxLoggedAuxCases (name : Str) :
    ∀ (logs : List SetRow) (acc : Nat),
      List.foldl (fun a l => if l.exercise = name then max a l.set_number else a) acc logs
          = acc ∨
        ∃ l, l ∈ logs ∧ l.exercise = name ∧
          List.foldl (fun a l => if l.exercise = name then max a l.set_number else a) acc logs
            = l.set_number
  | [], _ => Or.inl rfl
  | m :: ls, acc => by
    simp only [List.foldl_cons]
    rcases maxLoggedAuxCases name ls
        (if m.exercise = name then max acc m.set_number else acc) with h | ⟨l, hl, he, hf⟩
    · rw [h]
      split
      · next hm =>
        rcases Nat.le_total acc m.set_number with hle | hle
        · exact Or.inr ⟨m, List.mem_cons_self m ls, hm, Nat.max_eq_right hle⟩
        · exact Or.inl (Nat.max_eq_left hle)
      · exact Or.inl rfl
    · exact Or.inr ⟨l, List.mem_cons_of_mem _ hl, he, hf⟩

theorem nextStepNoneIff (logs : List SetRow) :
    ∀ exercises, determineNextStep exercises logs = none ↔
      ∀ d ∈ exercises, d.is_trackable = true →
        d.target_sets.getD 1 ≤ maxLogged logs d.exercise_name
  | [] => by simp [determineNextStep]
  | e :: rest => by
    simp only [determineNextStep]
    split
    · next ht =>
      split
      · next hlt =>
        constructor
        · intro h
          exact Option.noConfusion h
        · intro h
          exact absurd (h e (List.mem_cons_self e rest) ht) (Nat.not_le.mpr hlt)
      · next hge =>
        rw [nextStepNoneIff logs rest]
        constructor
        · intro h d hd htr
          rcases List.mem_cons.mp hd with rfl | hmem
          · exact Nat.not_lt.mp hge
          · exact h d hmem htr
        · intro h d hd htr
          exact h d (List.mem_cons_of_mem _ hd) htr
    · next ht =>
      rw [nextStepNoneIff logs rest]
      constructor
      · intro h d hd htr
        rcases List.mem_cons.mp hd with rfl | hmem
        · exact absurd htr ht
        · exact h d hmem htr
      · intro h d hd htr
        exact h d (List.mem_cons_of_mem _ hd) htr

theorem nextStepSome (logs : List SetRow) :
    ∀ exercises step, determineNextStep exercises logs = some step →
      ∃ pre d post, exercises = pre ++ d :: post ∧ d.is_trackable = true ∧
        maxLogged logs d.exercise_name < d.target_sets.getD 1 ∧
        (∀ d2 ∈ pre, d2.is_trackable = true →
          d2.target_sets.getD 1 ≤ maxLogged logs d2.exercise_name) ∧
        step.exercise = d.exercise_name ∧
        step.next_set = maxLogged logs d.exercise_name + 1
  | [], _, h => Option.noConfusion h
  | e :: rest, step, h => by
    simp only [determineNextStep] at h
    split at h
    · next ht =>
      split at h
      · next hlt =>
        replace h := Option.some_inj.mp h
        subst h
        exact ⟨[], e, rest, rfl, ht, hlt, by simp, rfl, rfl⟩
      · next hge =>
        obtain ⟨pre, d, post, heq, htr, hlt, hpre, hse, hsn⟩ := nextStepSome logs rest step h
        refine ⟨e :: pre, d, post, by rw [heq, List.cons_append], htr, hlt, ?_, hse, hsn⟩
        intro d2 hd2 htr2
        rcases List.mem_cons.mp hd2 with rfl | hmem
        · exact Nat.not_lt.mp hge
        · exact hpre d2 hmem htr2
    · next ht =>
      obtain ⟨pre, d, post, heq, htr, hlt, hpre, hse, hsn⟩ := nextStepSome logs rest step h
      refine ⟨e :: pre, d, post, by rw [heq, List.cons_append], htr, hlt, ?_, hse, hsn⟩
      intro d2 hd2 htr2
      rcases List.mem_cons.mp hd2 with rfl | hmem
      · exact absurd htr2 ht
      · exact hpre d2 hmem htr2

/-- C1: the progression engine's lookup is the per-exercise maximum
logged `set_number` (0 for unlogged exercises); the engine returns the
first trackable exercise (in plan order) whose maximum falls short of
its goal (`target_sets`, or 1 when unset) with `next_set = logged + 1`,
and returns `none` exactly when every trackable exercise met its goal. -/
theorem c1_next_step_characterisation (exercises : List ExerciseDescriptor)
    (logs : List SetRow) :
    (∀ nm : Str,
      (∀ l ∈ logs, l.exercise = nm → l.set_number ≤ maxLogged logs nm) ∧
      (maxLogged logs nm = 0 ∨
        ∃ l, l ∈ logs ∧ l.exercise = nm ∧ maxLogged logs nm = l.set_number)) ∧
    (determineNextStep exercises logs = none ↔
      ∀ d ∈ exercises, d.is_trackable = true →
        d.target_sets.getD 1 ≤ maxLogged logs d.exercise_name) ∧
    (∀ step, determineNextStep exercises logs = some step →
      ∃ pre d post, exercises = pre ++ d :: post ∧ d.is_trackable = true ∧
        maxLogged logs d.exercise_name < d.target_sets.getD 1 ∧
        (∀ d2 ∈ pre, d2.is_trackable = true →
          d2.target_sets.getD 1 ≤ maxLogged logs d2.exercise_name) ∧
        step.exercise = d.exercise_name ∧
        step.next_set = maxLogged logs d.exercise_name + 1) := by
  refine ⟨fun nm => ⟨?_, ?_⟩, nextStepNoneIff logs exercises,
    fun step h => nextStepSome logs exercises step h⟩
  · intro l hl he
    simp only [maxLogged]
    exact maxLoggedAuxMem nm logs 0 l hl he
  · simp only [maxLogged]
    exact maxLoggedAuxCases nm logs 0

/-- Concrete trackable descriptor for the C1 witness. -/
def descC1 : ExerciseDescriptor :=
  ⟨"深蹲".toList, [], "深蹲".toList, false, some 2, none, none, none, [], true, catExercise⟩

/-- The step the engine reports for `descC1` with no logs. -/
def stepC1 : NextStepInfo :=
  ⟨"深蹲".toList, 1, some 2, none, none, none, [], false, [], "深蹲".toList⟩

/-- Witness for C1 at a concrete plan and empty log list. -/
theorem c1_witness :
    determineNextStep [descC1] [] = some stepC1 ∧
    (∃ pre d post, [descC1] = pre ++ d :: post ∧ d.is_trackable = true ∧
      maxLogged [] d.exercise_name < d.target_sets.getD 1 ∧
      (∀ d2 ∈ pre, d2.is_trackable = true →
        d2.target_sets.getD 1 ≤ maxLogged [] d2.exercise_name) ∧
      stepC1.exercise = d.exercise_name ∧
      stepC1.next_set = maxLogged [] d.exercise_name + 1) :=
  ⟨by decide, (c1_next_step_characterisation [descC1] []).2.2 stepC1 (by decide)⟩

/-- The invariant of C4: per date, at most one `active` session row. -/
def atMostOneActive (rows : List SessionRow) : Prop :=
  ∀ d : Str, (activeFor rows d).length ≤ 1

theorem activeForAppend : ∀ (l1 l2 : List SessionRow) (d : Str),
    activeFor (l1 ++ l2) d = activeFor l1 d ++ activeFor l2 d
  | [], _, _ => rfl
  | r :: rs, l2, d => by
    show activeFor (r :: (rs ++ l2)) d = activeFor (r :: rs) d ++ activeFor l2 d
    simp only [activeFor]
    split
    · rw [activeForAppend rs l2 d, List.cons_append]
    · exact activeForAppend rs l2 d

theorem pickLatestNoneIff : ∀ l : List SessionRow, pickLatest l = none ↔ l = []
  | [] => by simp [pickLatest]
  | r :: rs => by
    constructor
    · intro h
      exfalso
      cases hp : pickLatest rs with
      | none => simp [pickLatest, hp] at h
      | some b =>
        simp only [pickLatest, hp] at h
        split at h <;> exact Option.noConfusion h
    · intro h
      exact absurd h (List.cons_ne_nil r rs)

theorem activeForMarkCompletedLe (sid : Str) :
    ∀ (l : List SessionRow) (d : Str),
      (activeFor (markCompleted l sid) d).length ≤ (activeFor l d).length
  | [], _ => le_rfl
  | r :: rs, d => by
    simp only [markCompleted, activeFor]
    by_cases hid : r.id = sid
    · rw [if_pos hid]
      have hsc : ¬ (statusCompleted = statusActive) := by decide
      have hc : ¬ (({ r with status := statusCompleted } : SessionRow).plan_date = d ∧
          ({ r with status := statusCompleted } : SessionRow).status = statusActive) := by
        intro hc
        exact hsc hc.2
      rw [if_neg hc]
      split
      · exact le_trans (activeForMarkCompletedLe sid rs d) (Nat.le_succ _)
      · exact activeForMarkCompletedLe sid rs d
    · rw [if_neg hid]
      split
      · simp only [List.length_cons]
        exact Nat.succ_le_succ (activeForMarkCompletedLe sid rs d)
      · exact activeForMarkCompletedLe sid rs d

/-- C4: starting a session for a date that already has an active one
returns that session unchanged (same id, no insert); starting preserves
"at most one active session per date"; a second sequential start for
the same date returns the same session id; and completing a session
(the only other mutation of the sessions table) also preserves the
invariant. -/
theorem c4_single_active_session (σ : ServiceState) (d : Str) (rest rest2 : Nat)
    (nid nid2 : Str) (now now2 : Nat) (today today2 : Str) (anyId : Str)
    (hd : d ≠ []) (hinv : atMostOneActive σ.sessions) :
    (∀ r, findActiveSession σ d = some r →
      (startSession σ d rest nid now today).1.id = r.id ∧
      (startSession σ d rest nid now today).2 = σ) ∧
    atMostOneActive (startSession σ d rest nid now today).2.sessions ∧
    (startSession (startSession σ d rest nid now today).2 d rest2 nid2 now2 today2).1.id =
      (startSession σ d rest nid now today).1.id ∧
    atMostOneActive (completeSession σ anyId).2.sessions := by
  have hcomplete : atMostOneActive (completeSession σ anyId).2.sessions := by
    intro d2
    have : (completeSession σ anyId).2.sessions = markCompleted σ.sessions anyId := by
      simp only [completeSession]
      split <;> rfl
    rw [this]
    exact le_trans (activeForMarkCompletedLe anyId σ.sessions d2) (hinv d2)
  have hnd : normalizeDate d today = d := if_neg hd
  have hnd2 : normalizeDate d today2 = d := if_neg hd
  cases hfa : findActiveSession σ d with
  | some r =>
    have hstart : startSession σ d rest nid now today =
        (⟨r.id, r.plan_date, r.status, r.rest_interval_seconds, fetchLogs σ r.id⟩, σ) := by
      simp only [startSession, hnd, hfa]
    refine ⟨?_, ?_, ?_, hcomplete⟩
    · intro r2 hr2
      replace hr2 := Option.some_inj.mp hr2
      subst hr2
      rw [hstart]
      exact ⟨rfl, rfl⟩
    · rw [hstart]
      exact hinv
    · rw [hstart]
      simp only [startSession, hnd2, hfa]
  | none =>
    have hempty : activeFor σ.sessions d = [] := by
      unfold findActiveSession at hfa
      exact (pickLatestNoneIff _).mp hfa
    have hstart : startSession σ d rest nid now today =
        (⟨nid, d, statusActive, rest, []⟩,
         ⟨σ.sessions ++ [⟨nid, d, statusActive, rest, now⟩], σ.sets⟩) := by
      simp only [startSession, hnd, hfa]
    refine ⟨?_, ?_, ?_, hcomplete⟩
    · intro r hr
      exact Option.noConfusion hr
    · rw [hstart]
      intro d2
      simp only []
      rw [activeForAppend]
      by_cases hdd : d2 = d
      · subst hdd
        rw [hempty]
        simp [activeFor]
      · have h1 : activeFor [(⟨nid, d, statusActive, rest, now⟩ : SessionRow)] d2 = [] := by
          have hc : ¬ (d = d2 ∧ statusActive = statusActive) := fun hcc => hdd hcc.1.symm
          rw [activeFor, if_neg hc, activeFor]
        rw [h1, List.append_nil]
        exact hinv d2
    · rw [hstart]
      have hfind : findActiveSession
          ⟨σ.sessions ++ [⟨nid, d, statusActive, rest, now⟩], σ.sets⟩ d =
          some ⟨nid, d, statusActive, rest, now⟩ := by
        unfold findActiveSession
        simp only []
        rw [activeForAppend, hempty]
        simp [activeFor, pickLatest]
      simp only [startSession, hnd2, hfind]

/-- Concrete one-active-session table for the C4 witness. -/
def sessionRowW : SessionRow := ⟨"s1".toList, "2025-01-01".toList, statusActive, 90, 0⟩

/-- Service state of the C4 witness. -/
def stateW : ServiceState := ⟨[sessionRowW], []⟩

/-- Date of the C4 witness. -/
def dateW : Str := "2025-01-01".toList

/-- Witness for C4 on a state holding one active session. -/
theorem c4_witness :
    atMostOneActive stateW.sessions ∧
    ((∀ r, findActiveSession stateW dateW = some r →
        (startSession stateW dateW 80 "n1".toList 5 "t".toList).1.id = r.id ∧
        (startSession stateW dateW 80 "n1".toList 5 "t".toList).2 = stateW) ∧
      atMostOneActive (startSession stateW dateW 80 "n1".toList 5 "t".toList).2.sessions ∧
      (startSession (startSession stateW dateW 80 "n1".toList 5 "t".toList).2 dateW 70
          "n2".toList 6 "t2".toList).1.id =
        (startSession stateW dateW 80 "n1".toList 5 "t".toList).1.id ∧
      atMostOneActive (completeSession stateW "s1".toList).2.sessions) := by
  have hinv : atMostOneActive stateW.sessions := by
    intro d
    simp only [stateW, activeFor]
    split <;> simp [activeFor]
  exact ⟨hinv, c4_single_active_session stateW dateW 80 70 "n1".toList "n2".toList 5 6
    "t".toList "t2".toList "s1".toList (by decide) hinv⟩

/-- C5: when the date's summary has no trackable exercise, the
start-training route answers the 400 `{error}` reply and leaves the
stored state untouched (no session row is created). -/
theorem c5_rest_day_rejected (plan : Option PlanTable) (phase : Option Str)
    (remarks : List Str) (payloadDate : Option Str) (payloadRest : Option Nat)
    (σ : ServiceState) (newId : Str) (now : Nat) (today : Str)
    (h : (summarisePlan plan phase remarks).trackable_exercise_count = 0) :
    startTraining plan phase remarks payloadDate payloadRest σ newId now today =
      (StartResponse.badRequest errNoTrackable, σ) := by
  have hfilter : (summarisePlan plan phase remarks).exercises.filter
      (fun e => e.is_trackable) = [] := by
    have hc := trackableCountEqFilter plan phase remarks
    rw [h] at hc
    exact List.length_eq_zero.mp hc.symm
  unfold startTraining
  rw [if_pos hfilter]

/-- Witness for C5 on the rest-day plan. -/
theorem c5_witness :
    (summarisePlan (some planRestDay) none []).trackable_exercise_count = 0 ∧
    startTraining (some planRestDay) none [] none none ⟨[], []⟩ "s".toList 0 "d".toList =
      (StartResponse.badRequest errNoTrackable, ⟨[], []⟩) :=
  ⟨by decide, c5_rest_day_rejected (some planRestDay) none [] none none ⟨[], []⟩
    "s".toList 0 "d".toList (by decide)⟩

theorem nextStepFilterTrackable (logs : List SetRow) :
    ∀ exercises : List ExerciseDescriptor,
      determineNextStep exercises logs =
        determineNextStep (exercises.filter (fun d => d.is_trackable)) logs
  | [] => rfl
  | e :: rest => by
    cases ht : e.is_trackable with
    | true =>
      simp only [determineNextStep, List.filter_cons, ht, if_true]
      split
      · rfl
      · exact nextStepFilterTrackable logs rest
    | false =>
      simp only [determineNextStep, List.filter_cons, ht, Bool.false_eq_true, if_false]
      exact nextStepFilterTrackable logs rest

/-- C6: for any plan whose trackable exercises are exactly 深蹲 (3 sets,
rest target 90 s) followed by 硬拉 (3 sets, rest target 120 s), starting
from an empty store: start-training reports 深蹲 set 1, and six
successive next-set calls answer `rest` with `rest_seconds` 90, 90, 120,
120, 120 and then `completed`. -/
theorem c6_end_to_end (plan : Option PlanTable) (phase : Option Str) (remarks : List Str)
    (d1 d2 : ExerciseDescriptor) (date sid : Str)
    (lid1 lid2 lid3 lid4 lid5 lid6 today : Str) (t0 : Nat)
    (reps : Option Int) (aw : Option Str) (nts : Option Str)
    (hdate : ¬ date = []) (hsid : ¬ sid = [])
    (hf : (summarisePlan plan phase remarks).exercises.filter (fun d => d.is_trackable) =
      [d1, d2])
    (h1n : d1.exercise_name = "深蹲".toList) (h1t : d1.is_trackable = true)
    (h1s : d1.target_sets = some 3) (h1r : d1.target_rest_seconds = some 90)
    (h2n : d2.exercise_name = "硬拉".toList) (h2t : d2.is_trackable = true)
    (h2s : d2.target_sets = some 3) (h2r : d2.target_rest_seconds = some 120) :
    ∃ σ1 σ2 σ3 σ4 σ5 σ6 : ServiceState,
      startTraining plan phase remarks (some date) none ⟨[], []⟩ sid t0 today =
        (StartResponse.ok sid statusActive (some "深蹲".toList) (some 1), σ1) ∧
      nextSet plan phase remarks (some sid) reps aw nts none σ1 lid1 =
        (NextSetResponse.restR "深蹲".toList 2 (some 90) 90, σ2) ∧
      nextSet plan phase remarks (some sid) reps aw nts none σ2 lid2 =
        (NextSetResponse.restR "深蹲".toList 3 (some 90) 90, σ3) ∧
      nextSet plan phase remarks (some sid) reps aw nts none σ3 lid3 =
        (NextSetResponse.restR "硬拉".toList 1 (some 120) 120, σ4) ∧
      nextSet plan phase remarks (some sid) reps aw nts none σ4 lid4 =
        (NextSetResponse.restR "硬拉".toList 2 (some 120) 120, σ5) ∧
      nextSet plan phase remarks (some sid) reps aw nts none σ5 lid5 =
        (NextSetResponse.restR "硬拉".toList 3 (some 120) 120, σ6) ∧
      (nextSet plan phase remarks (some sid) reps aw nts none σ6 lid6).1 =
        NextSetResponse.completedR := by
  have hstep : ∀ logs : List SetRow,
      determineNextStep (summarisePlan plan phase remarks).exercises logs =
        determineNextStep [d1, d2] logs := by
    intro logs
    rw [nextStepFilterTrackable, hf]
  have hlne21 : ¬ (("硬拉".toList : Str) = "深蹲".toList) := by decide
  have hlne12 : ¬ (("深蹲".toList : Str) = "硬拉".toList) := by decide
  have hln1 : ¬ (("深蹲".toList : Str) = []) := by decide
  have hln2 : ¬ (("硬拉".toList : Str) = []) := by decide
  set R := pyOrOpt (summarisePlan plan phase remarks).default_rest_seconds 90 with hR
  refine ⟨⟨[⟨sid, date, statusActive, R, t0⟩], []⟩,
    ⟨[⟨sid, date, statusActive, R, t0⟩],
      [⟨lid1, sid, "深蹲".toList, 1, reps, aw, nts, some 90⟩]⟩,
    ⟨[⟨sid, date, statusActive, R, t0⟩],
      [⟨lid1, sid, "深蹲".toList, 1, reps, aw, nts, some 90⟩,
       ⟨lid2, sid, "深蹲".toList, 2, reps, aw, nts, some 90⟩]⟩,
    ⟨[⟨sid, date, statusActive, R, t0⟩],
      [⟨lid1, sid, "深蹲".toList, 1, reps, aw, nts, some 90⟩,
       ⟨lid2, sid, "深蹲".toList, 2, reps, aw, nts, some 90⟩,
       ⟨lid3, sid, "深蹲".toList, 3, reps, aw, nts, some 90⟩]⟩,
    ⟨[⟨sid, date, statusActive, R, t0⟩],
      [⟨lid1, sid, "深蹲".toList, 1, reps, aw, nts, some 90⟩,
       ⟨lid2, sid, "深蹲".toList, 2, reps, aw, nts, some 90⟩,
       ⟨lid3, sid, "深蹲".toList, 3, reps, aw, nts, some 90⟩,
       ⟨lid4, sid, "硬拉".toList, 1, reps, aw, nts, some 120⟩]⟩,
    ⟨[⟨sid, date, statusActive, R, t0⟩],
      [⟨lid1, sid, "深蹲".toList, 1, reps, aw, nts, some 90⟩,
       ⟨lid2, sid, "深蹲".toList, 2, reps, aw, nts, some 90⟩,
       ⟨lid3, sid, "深蹲".toList, 3, reps, aw, nts, some 90⟩,
       ⟨lid4, sid, "硬拉".toList, 1, reps, aw, nts, some 120⟩,
       ⟨lid5, sid, "硬拉".toList, 2, reps, aw, nts, some 120⟩]⟩,
    ?_, ?_, ?_, ?_, ?_, ?_, ?_⟩
  · simp [startTraining, startSession, normalizeDate, findActiveSession, activeFor,
      pickLatest, hdate, hf, hstep, determineNextStep, maxLogged, pyOrOpt,
      h1n, h1t, h1s, h1r, h2n, h2t, h2s, h2r]
    rw [hR]
    rfl
  · simp [nextSet, getSession, findSession, fetchLogs, logsFor, recordSet,
      hsid, hstep, determineNextStep, maxLogged, pyOrOpt,
      h1n, h1t, h1s, h1r, h2n, h2t, h2s, h2r, hlne21, hlne12, hln1, hln2]
  · simp [nextSet, getSession, findSession, fetchLogs, logsFor, recordSet,
      hsid, hstep, determineNextStep, maxLogged, pyOrOpt,
      h1n, h1t, h1s, h1r, h2n, h2t, h2s, h2r, hlne21, hlne12, hln1, hln2]
  · simp [nextSet, getSession, findSession, fetchLogs, logsFor, recordSet,
      hsid, hstep, determineNextStep, maxLogged, pyOrOpt,
      h1n, h1t, h1s, h1r, h2n, h2t, h2s, h2r, hlne21, hlne12, hln1, hln2]
  · simp [nextSet, getSession, findSession, fetchLogs, logsFor, recordSet,
      hsid, hstep, determineNextStep, maxLogged, pyOrOpt,
      h1n, h1t, h1s, h1r, h2n, h2t, h2s, h2r, hlne21, hlne12, hln1, hln2]
  · simp [nextSet, getSession, findSession, fetchLogs, logsFor, recordSet,
      hsid, hstep, determineNextStep, maxLogged, pyOrOpt,
      h1n, h1t, h1s, h1r, h2n, h2t, h2s, h2r, hlne21, hlne12, hln1, hln2]
  · simp [nextSet, getSession, findSession, fetchLogs, logsFor, recordSet,
      completeSession, markCompleted,
      hsid, hstep, determineNextStep, maxLogged, pyOrOpt,
      h1n, h1t, h1s, h1r, h2n, h2t, h2s, h2r, hlne21, hlne12, hln1, hln2]

/-- The descriptor `planC6`'s first row summarises to. -/
def descSquat : ExerciseDescriptor :=
  ⟨"深蹲".toList, [], "深蹲".toList, false, some 3, some 8, none, some 90,
   ["组数: 3".toList, "次数: 8".toList, "休息: 90秒".toList], true, catExercise⟩

/-- The descriptor `planC6`'s second row summarises to. -/
def descDead : ExerciseDescriptor :=
  ⟨"硬拉".toList, [], "硬拉".toList, false, some 3, some 8, none, some 120,
   ["组数: 3".toList, "次数: 8".toList, "休息: 2分".toList], true, catExercise⟩

/-- Witness for C6 on the concrete plan `planC6`, with generated ids and
`actual_reps = 12`. -/
theorem c6_witness :
    ((summarisePlan (some planC6) none []).exercises.filter (fun d => d.is_trackable) =
      [descSquat, descDead]) ∧
    (∃ σ1 σ2 σ3 σ4 σ5 σ6 : ServiceState,
      startTraining (some planC6) none [] (some "2025-06-01".toList) none ⟨[], []⟩
          "sess-1".toList 0 "2025-06-01".toList =
        (StartResponse.ok "sess-1".toList statusActive (some "深蹲".toList) (some 1), σ1) ∧
      nextSet (some planC6) none [] (some "sess-1".toList) (some 12) none none none σ1
          "l1".toList =
        (NextSetResponse.restR "深蹲".toList 2 (some 90) 90, σ2) ∧
      nextSet (some planC6) none [] (some "sess-1".toList) (some 12) none none none σ2
          "l2".toList =
        (NextSetResponse.restR "深蹲".toList 3 (some 90) 90, σ3) ∧
      nextSet (some planC6) none [] (some "sess-1".toList) (some 12) none none none σ3
          "l3".toList =
        (NextSetResponse.restR "硬拉".toList 1 (some 120) 120, σ4) ∧
      nextSet (some planC6) none [] (some "sess-1".toList) (some 12) none none none σ4
          "l4".toList =
        (NextSetResponse.restR "硬拉".toList 2 (some 120) 120, σ5) ∧
      nextSet (some planC6) none [] (some "sess-1".toList) (some 12) none none none σ5
          "l5".toList =
        (NextSetResponse.restR "硬拉".toList 3 (some 120) 120, σ6) ∧
      (nextSet (some planC6) none [] (some "sess-1".toList) (some 12) none none none σ6
          "l6".toList).1 =
        NextSetResponse.completedR) :=
  ⟨by decide,
   c6_end_to_end (some planC6) none [] descSquat descDead "2025-06-01".toList
     "sess-1".toList "l1".toList "l2".toList "l3".toList "l4".toList "l5".toList
     "l6".toList "2025-06-01".toList 0 (some 12) none none
     (by decide) (by decide) (by decide) (by decide) (by decide) (by decide)
     (by decide) (by decide) (by decide) (by decide) (by decide)⟩

/-- The untrackable descriptor the rest-day row summarises to. -/
def descRest : ExerciseDescriptor :=
  ⟨"休息".toList, [], "休息".toList, false, none, none, none, none, [], false, catRest⟩

/-- Witness for C2 on the rest-day row. -/
theorem c2_witness :
    summariseRow (planRestDay.headers.map stripStr) 1 (planRestDay.rows.headD [])
        = some descRest ∧
    descRest.is_trackable = false ∧
    (descRest.target_sets = none ∧ descRest.target_reps = none ∧
      descRest.target_rest_seconds = none ∧ descRest.category ≠ catExercise ∧
      (categorizeEntry descRest.exercise_name = catExercise →
        descRest.category = catNote)) :=
  ⟨by decide, by decide,
   c2_untrackable_clears_targets (planRestDay.headers.map stripStr) 1
     (planRestDay.rows.headD []) descRest (by decide) (by decide)⟩

/-- Accumulator with both targets already set, for the C8 witness. -/
def accW0 : RowAcc := ⟨some 2, some 4, none, none, []⟩

/-- Witness for C8's amended statement: first-wins preservation, in-cell
labeled precedence over `AxB`, and `AxB` fill on unlabeled cells, each
at a concrete cell. -/
theorem c8_witness :
    (processCell 1 "组数".toList "5".toList accW0).target_sets = some 2 ∧
    (processCell 1 "次数".toList "5".toList accW0).target_reps = some 4 ∧
    (processCell 1 "组数".toList "第2组 4x6".toList initRowAcc).target_sets = some 2 ∧
    (processCell 1 "次数".toList "第3次 4x6".toList initRowAcc).target_reps = some 3 ∧
    (processCell 1 "备注".toList "4x6".toList initRowAcc).target_sets = some 4 ∧
    (processCell 1 "备注".toList "4x6".toList initRowAcc).target_reps = some 6 :=
  ⟨c8_axb_fill_amended.1 1 "组数".toList "5".toList accW0 2 (by decide),
   c8_axb_fill_amended.2.1 1 "次数".toList "5".toList accW0 4 (by decide),
   c8_axb_fill_amended.2.2.1 1 "组数".toList "第2组 4x6".toList initRowAcc 2
     (by decide) (by decide) (by decide),
   c8_axb_fill_amended.2.2.2.1 1 "次数".toList "第3次 4x6".toList initRowAcc 3
     (by decide) (by decide) (by decide),
   c8_axb_fill_amended.2.2.2.2.1 1 "备注".toList "4x6".toList initRowAcc 4 6
     (by decide) (by decide) (by decide),
   c8_axb_fill_amended.2.2.2.2.2 1 "备注".toList "4x6".toList initRowAcc 4 6
     (by decide) (by decide) (by decide)⟩

end Workout
